import Mathlib

/-!
Verification of the Outlook HTML snapshot analyzer (`OutlookDOMDiff`).

The development shallowly embeds the core of
`browser/outlook-diff-analyzer.js` (and the identical attribute-stability
logic of the Node variant `analyzers/dom-diff.js`): the attribute
stability analyzer, the landmark change detector, the element
correspondence matcher, and the anchor recommender.

Modelling conventions:
 - A parsed document is a `List Elem` in document order; an `Elem` carries
   the data the analyzer reads off a DOM element (tag name, attribute list
   in document order with unique names, text content, and the sibling /
   parent context used by `_getRelativePosition` and
   `_generateAdditionalSelectors`).
 - JS numbers are modelled as `Nat` where the code only ever adds
   non-negative integers, and as `Rat` for the attribute stability ratio.
 - String primitives that the Lean core library implements by well-founded
   recursion are re-implemented structurally (on `List Char`) so that every
   definition evaluates by kernel reduction.
-/

/-- `pat` occurs as a contiguous run inside `l`. -/
def charsContain (pat : List Char) : List Char → Bool
  | [] => pat.isEmpty
  | c :: rest => pat.isPrefixOf (c :: rest) || charsContain pat rest

/-- JS `a.includes(b)`: `b` occurs as a contiguous substring of `a`. -/
def strIncludes (s sub : String) : Bool :=
  charsContain sub.toList s.toList

/-- JS `s.toLowerCase()` (ASCII case folding, as `Char.toLower`). -/
def lowerStr (s : String) : String :=
  String.mk (s.toList.map Char.toLower)

/-- JS `s.startsWith(pre)`. -/
def strStartsWith (pre s : String) : Bool :=
  pre.toList.isPrefixOf s.toList

/-- One element of a parsed snapshot, carrying exactly the projections the
analyzer reads from a DOM element.  `tag` is `element.tagName` (uppercase in
a browser DOM); `attrs` is the attribute list in document order with unique
names; `text` is `element.textContent`; `prevSiblings` is the number of
preceding element siblings (what `_getRelativePosition` computes by walking
`previousElementSibling`); `parentTags` lists the tag names of the parent's
children (`none` when the element has no parent element); `childIndex` is
the element's index in its parent's children; `childrenCount` is
`element.children.length`. -/
structure Elem where
  tag : String
  attrs : List (String × String)
  text : String
  prevSiblings : Nat
  parentTags : Option (List String)
  childIndex : Nat
  childrenCount : Nat
deriving Repr, DecidableEq

/-- JS `element.getAttribute(name)` / lookup in the object built by
`_getAttributes` (attribute names are unique per element). -/
def getAttr (e : Elem) (name : String) : Option String :=
  (e.attrs.find? (fun p => p.1 == name)).map (fun p => p.2)

/-- JS `element.className`, the raw value of the `class` attribute
(empty string when absent). -/
def className (e : Elem) : String :=
  (getAttr e "class").getD ""

/-- JS `element.id` (empty string when absent). -/
def elemId (e : Elem) : String :=
  (getAttr e "id").getD ""

/-- `_hasDataAttribute`: some attribute name starts with `data-`. -/
def hasDataAttribute (e : Elem) : Bool :=
  e.attrs.any (fun attr => strStartsWith "data-" attr.1)

/-- `_getRelativePosition`: the zero-based index among element siblings,
obtained in the source by counting `previousElementSibling` steps. -/
def getRelativePosition (e : Elem) : Nat :=
  e.prevSiblings

/-- `_calculateTermMatchScore`: +1 per key term that occurs
case-insensitively in the element's text, then +2 for every
(attribute value, key term) pair where the term occurs case-insensitively
in the value, finally clamped by `Math.min(5, score)`. -/
def calculateTermMatchScore (e : Elem) (keyTerms : List String) : Nat :=
  let elementText := lowerStr e.text
  let textScore := keyTerms.foldl
    (fun acc term => if strIncludes elementText (lowerStr term) then acc + 1 else acc) 0
  let fullScore := e.attrs.foldl
    (fun acc p => keyTerms.foldl
      (fun acc2 term => if strIncludes (lowerStr p.2) (lowerStr term) then acc2 + 2 else acc2)
      acc)
    textScore
  min 5 fullScore

/-- `_findMatchingElement`'s per-candidate score: over the before-element's
attribute names, +2 when the candidate carries the identical value, else +1
when both values are non-empty (JS truthiness of the strings) and the
candidate's value contains the before-value; +1 for an identical tag name;
+2 for an identical relative sibling position. -/
def matchScore (beforeEl afterEl : Elem) : Nat :=
  let attrScore := beforeEl.attrs.foldl
    (fun acc p =>
      acc + (match getAttr afterEl p.1 with
        | some av =>
          if av = p.2 then 2
          else if av ≠ "" ∧ p.2 ≠ "" ∧ strIncludes av p.2 then 1
          else 0
        | none => 0))
    0
  let tagScore := if beforeEl.tag = afterEl.tag then 1 else 0
  let posScore := if getRelativePosition beforeEl = getRelativePosition afterEl then 2 else 0
  attrScore + tagScore + posScore

/-- The mutable `bestMatch` / `highestScore` loop of `_findMatchingElement`:
a candidate replaces the current best only when its score is strictly
higher. -/
def findMatchingElementAux (b : Elem) : List Elem → Option Elem → Nat → Option Elem
  | [], best, _ => best
  | c :: rest, best, hi =>
    if hi < matchScore b c then findMatchingElementAux b rest (some c) (matchScore b c)
    else findMatchingElementAux b rest best hi

/-- `_findMatchingElement`: best-scoring candidate, first wins ties, `null`
when every candidate scores 0 (the initial `highestScore` is 0 and only
strict improvements are kept). -/
def findMatchingElement (b : Elem) (pool : List Elem) : Option Elem :=
  findMatchingElementAux b pool none 0

/-- Number of key terms occurring case-insensitively in the element's text
content. -/
def textTermMatches (e : Elem) (keyTerms : List String) : Nat :=
  keyTerms.countP (fun term => strIncludes (lowerStr e.text) (lowerStr term))

/-- Number of (attribute value, key term) pairs where the term occurs
case-insensitively in the value. -/
def attrTermPairMatches (e : Elem) (keyTerms : List String) : Nat :=
  (e.attrs.map (fun p =>
    keyTerms.countP (fun term => strIncludes (lowerStr p.2) (lowerStr term)))).sum

/-- Term-match score as the claim words it: +1 per key term in the text,
+2 per key term occurring in SOME attribute value (counted once per term,
not once per matching attribute), capped at 5. -/
def claimedTermMatchScore (e : Elem) (keyTerms : List String) : Nat :=
  min 5 (textTermMatches e keyTerms +
    2 * keyTerms.countP (fun term =>
      e.attrs.any (fun p => strIncludes (lowerStr p.2) (lowerStr term))))

/-- The claim's reading of the matcher score, without the JS truthiness
guard on the substring bonus: +2 per before-attribute with identical value
on the candidate, else +1 whenever the candidate's value contains the
before-value as a substring; +1 for equal tags; +2 for equal sibling
index. -/
def claimedMatchScore (beforeEl afterEl : Elem) : Nat :=
  let attrScore := beforeEl.attrs.foldl
    (fun acc p =>
      acc + (match getAttr afterEl p.1 with
        | some av =>
          if av = p.2 then 2
          else if strIncludes av p.2 then 1
          else 0
        | none => 0))
    0
  let tagScore := if beforeEl.tag = afterEl.tag then 1 else 0
  let posScore := if getRelativePosition beforeEl = getRelativePosition afterEl then 2 else 0
  attrScore + tagScore + posScore

/-- One insertion into a JS `Set` viewed as its insertion-ordered element
list: a duplicate collapses, a new value is appended. -/
def setInsert (l : List String) (v : String) : List String :=
  if v ∈ l then l else l ++ [v]

/-- The insertion-ordered distinct-value list of `new Set(values)`. -/
def distinctList (vs : List String) : List String :=
  vs.foldl setInsert []

/-- The distinct values of attribute `attrType` over a document, in
insertion order: `new Set(Array.from(dom.querySelectorAll('[attr]')).map(el
=> el.getAttribute(attr)))`. -/
def attrValueSet (doc : List Elem) (attrType : String) : List String :=
  distinctList (doc.filterMap (fun e => getAttr e attrType))

/-- `commonValues`: the before-set's values retained in the after-set, in
before-set insertion order (`[...beforeValues].filter(v =>
afterValues.has(v))`). -/
def commonAttrValues (beforeDOM afterDOM : List Elem) (attrType : String) : List String :=
  (attrValueSet beforeDOM attrType).filter
    (fun v => decide (v ∈ attrValueSet afterDOM attrType))

/-- The numeric stability score of `findStableAttributes` (a JS number,
modelled as a rational): `beforeValues.size > 0 ? commonValues.length /
beforeValues.size * 100 : 0`. -/
def rawStabilityScore (beforeDOM afterDOM : List Elem) (attrType : String) : ℚ :=
  if 0 < (attrValueSet beforeDOM attrType).length then
    ((commonAttrValues beforeDOM afterDOM attrType).length : ℚ)
      / ((attrValueSet beforeDOM attrType).length : ℚ) * 100
  else 0

/-- Decimal digit character. -/
def digitChar (d : Nat) : Char :=
  Char.ofNat (48 + d)

/-- Decimal digits of `n`, most significant first; the first argument is
structural fuel (any fuel above `n` yields the digits of `n`). -/
def natToCharsAux : Nat → Nat → List Char
  | 0, _ => []
  | fuel + 1, n =>
    if n < 10 then [digitChar n]
    else natToCharsAux fuel (n / 10) ++ [digitChar (n % 10)]

/-- Decimal representation of a natural number. -/
def natToChars (n : Nat) : List Char :=
  natToCharsAux (n + 1) n

/-- JS `x.toFixed(2)` on a non-negative number: round to the nearest
hundredth (ties towards the larger value, per ECMA-262) and print with
exactly two fractional digits. -/
def toFixed2 (q : ℚ) : String :=
  let n : Nat := (Rat.floor (q * 100 + 1 / 2)).toNat
  String.mk (natToChars (n / 100) ++ ['.', digitChar (n % 100 / 10), digitChar (n % 100 % 10)])

/-- One entry of the `stableAttributes` result object: note that
`stabilityScore` is the string `stabilityScore.toFixed(2)`, not a number. -/
structure AttrRecord where
  totalBefore : Nat
  totalAfter : Nat
  commonCount : Nat
  stabilityScore : String
  stableValues : List String
deriving Repr, DecidableEq

/-- The per-attribute body of `findStableAttributes` (identical in the
browser and Node variants). -/
def attrRecord (beforeDOM afterDOM : List Elem) (attrType : String) : AttrRecord :=
  { totalBefore := (attrValueSet beforeDOM attrType).length
    totalAfter := (attrValueSet afterDOM attrType).length
    commonCount := (commonAttrValues beforeDOM afterDOM attrType).length
    stabilityScore := toFixed2 (rawStabilityScore beforeDOM afterDOM attrType)
    stableValues := commonAttrValues beforeDOM afterDOM attrType }

/-- The fixed attribute catalog `attributesToCheck`. -/
def attributesToCheck : List String :=
  ["id", "class", "data-testid", "role", "aria-label", "name"]

/-- `findStableAttributes`: one record per catalog attribute, in catalog
order (the JS object keyed by attribute name, as an association list). -/
def findStableAttributes (beforeDOM afterDOM : List Elem) : List (String × AttrRecord) :=
  attributesToCheck.map (fun a => (a, attrRecord beforeDOM afterDOM a))

/-- Witness document: two elements with ids `x`, `y`. -/
def docIdXY : List Elem :=
  [⟨"DIV", [("id", "x")], "", 0, none, 0, 0⟩, ⟨"DIV", [("id", "y")], "", 1, none, 0, 0⟩]

/-- Witness document: one element with id `x`. -/
def docIdX : List Elem :=
  [⟨"DIV", [("id", "x")], "", 0, none, 0, 0⟩]

/-- The simple-selector forms used by the analyzer's catalogs and
strategies: `.class`, `[attr]`, `[attr="v"]`, `[attr*="v"]`. -/
inductive SimpleSel where
  | classSel (c : String)
  | attrExists (a : String)
  | attrEq (a v : String)
  | attrContains (a v : String)
deriving Repr, DecidableEq

/-- Characters of a CSS identifier (ASCII letters, digits, `-`, `_`). -/
def isIdentChar (c : Char) : Bool :=
  c.isAlphanum || c = '-' || c = '_'

/-- A double-quoted attribute value. -/
def parseQuoted (l : List Char) : Option String :=
  match l with
  | '"' :: rest =>
    if rest.getLast? = some '"' ∧ rest ≠ [] then some (String.mk rest.dropLast) else none
  | _ => none

/-- The inside of a `[...]` attribute selector. -/
def parseAttrInner (l : List Char) : Option SimpleSel :=
  let name := l.takeWhile isIdentChar
  let rest := l.dropWhile isIdentChar
  if name.isEmpty then none else
  match rest with
  | [] => some (.attrExists (String.mk name))
  | '*' :: '=' :: v =>
    match parseQuoted v with
    | some value => some (.attrContains (String.mk name) value)
    | none => none
  | '=' :: v =>
    match parseQuoted v with
    | some value => some (.attrEq (String.mk name) value)
    | none => none
  | _ => none

/-- Modelled from the spec: the query engine's selector syntax check
(§4.1/§7, `SelectorSyntaxError`).  The CSS engine is a platform API outside
the repository; this grammar covers exactly the selector forms appearing in
the analyzer's catalogs and strategies, and rejects everything else. -/
def parseSelector (s : String) : Option SimpleSel :=
  match s.toList with
  | '.' :: rest =>
    if rest ≠ [] ∧ rest.all isIdentChar then some (.classSel (String.mk rest)) else none
  | '[' :: rest =>
    if rest.getLast? = some ']' then parseAttrInner rest.dropLast else none
  | _ => none

/-- JS `className.split(' ')` (accumulator holds the current token
reversed). -/
def splitOnSpaceAux : List Char → List Char → List String
  | [], cur => [String.mk cur.reverse]
  | c :: rest, cur =>
    if c = ' ' then String.mk cur.reverse :: splitOnSpaceAux rest []
    else splitOnSpaceAux rest (c :: cur)

/-- The whitespace-separated class tokens of an element
(`className.split(' ').filter(c => c)`). -/
def classTokens (e : Elem) : List String :=
  (splitOnSpaceAux (className e).toList []).filter (fun c => c ≠ "")

/-- Modelled from the spec: CSS matching of one simple selector against one
element (§4.1 TreeModel selector matching). -/
def elemMatches (e : Elem) : SimpleSel → Bool
  | .classSel c => (classTokens e).contains c
  | .attrExists a => (getAttr e a).isSome
  | .attrEq a v => getAttr e a == some v
  | .attrContains a v =>
    match getAttr e a with
    | some w => strIncludes w v
    | none => false

/-- Modelled from the spec: `dom.querySelector(sel)` — the first matching
element in document order; a syntactically invalid selector raises
(`SelectorSyntaxError`), modelled as `Except.error`. -/
def querySelectorFirst (doc : List Elem) (sel : String) : Except Unit (Option Elem) :=
  match parseSelector sel with
  | none => .error ()
  | some s => .ok (doc.find? (fun e => elemMatches e s))

/-- The `{found, selector, element}` object returned by
`_findElementMatchingSelectors`; the not-found object carries no selector
and no element (modelled as `none`).  The matched element is kept whole
here where the source stores `_getElementMetadata(element)`, a projection
of it that no later comparison reads. -/
structure MatchOutcome where
  found : Bool
  selector : Option String
  element : Option Elem
deriving Repr, DecidableEq

/-- `_findElementMatchingSelectors`: try the candidate selectors in order;
an invalid selector is caught and skipped; the first selector matching some
element wins. -/
def findElementMatchingSelectors (doc : List Elem) : List String → MatchOutcome
  | [] => ⟨false, none, none⟩
  | sel :: rest =>
    match querySelectorFirst doc sel with
    | .error _ => findElementMatchingSelectors doc rest
    | .ok none => findElementMatchingSelectors doc rest
    | .ok (some e) => ⟨true, some sel, some e⟩

/-- One entry of the fixed landmark catalog `criticalElements`. -/
structure Landmark where
  name : String
  selectors : List String
deriving Repr, DecidableEq

/-- The fixed landmark catalog of `identifyChangedSelectors` (browser
variant). -/
def criticalElements : List Landmark :=
  [⟨"MESSAGE_LIST", [".ms-List", "[role=\"list\"]", "[data-list-type]"]⟩,
   ⟨"COMPOSE_BUTTON", ["[aria-label*=\"New mail\"]", "[aria-label*=\"Compose\"]"]⟩,
   ⟨"FOLDER_TREE", ["[role=\"tree\"]", ".folderPaneTree", "[aria-label*=\"folder pane\"]"]⟩,
   ⟨"READING_PANE",
     ["[aria-label*=\"Reading Pane\"]", ".readingPane", "[data-app-section=\"ReadingPane\"]"]⟩,
   ⟨"RIBBON", [".ms-CommandBar", "[role=\"toolbar\"]", ".commandBarWrapper"]⟩]

/-- One emitted entry of `changedSelectors`. -/
structure ChangeRecord where
  elementName : String
  before : MatchOutcome
  after : MatchOutcome
  status : String
deriving Repr, DecidableEq

/-- The per-landmark body of `identifyChangedSelectors`: push a record
exactly when the used selector or the found flag differs, with status
`added` / `removed` / `changed` chosen by the found flags. -/
def recordFor (beforeDOM afterDOM : List Elem) (lm : Landmark) : Option ChangeRecord :=
  let beforeResults := findElementMatchingSelectors beforeDOM lm.selectors
  let afterResults := findElementMatchingSelectors afterDOM lm.selectors
  if beforeResults.selector ≠ afterResults.selector
      ∨ beforeResults.found ≠ afterResults.found then
    some ⟨lm.name, beforeResults, afterResults,
      if beforeResults.found = false then "added"
      else if afterResults.found = false then "removed"
      else "changed"⟩
  else none

/-- `identifyChangedSelectors` (browser variant): the emitted records over
the fixed catalog, in catalog order. -/
def identifyChangedSelectors (beforeDOM afterDOM : List Elem) : List ChangeRecord :=
  criticalElements.filterMap (recordFor beforeDOM afterDOM)

/-- Witness document for the landmark claims: a single toolbar element. -/
def docToolbar : List Elem :=
  [⟨"DIV", [("role", "toolbar")], "", 0, none, 0, 0⟩]

/-- The RIBBON entry of the landmark catalog. -/
def lmRibbon : Landmark :=
  ⟨"RIBBON", [".ms-CommandBar", "[role=\"toolbar\"]", ".commandBarWrapper"]⟩

/-- One entry of a strategy's candidate array. -/
structure Candidate where
  selector : String
  stabilityScore : Nat
  type : String
deriving Repr, DecidableEq

/-- Modelled from the spec: `candidates.sort((a, b) => b.stabilityScore -
a.stabilityScore)` — JS `Array.prototype.sort` is a platform API mandated
to be stable; a stable descending insertion sort. -/
def sortCandidatesDesc (l : List Candidate) : List Candidate :=
  List.insertionSort (fun a b => b.stabilityScore ≤ a.stabilityScore) l

/-- `[...classes].sort((a, b) => b.length - a.length)` — longest class
token first, stable. -/
def sortClassesByLengthDesc (l : List String) : List String :=
  List.insertionSort (fun a b => b.length ≤ a.length) l

/-- `_generateAdditionalSelectors`: tag name, then the first class token if
any, then `:nth-child(position)` when the parent has several children more
than one of which shares the element's tag. -/
def generateAdditionalSelectors (e : Elem) : String :=
  let tagSel := [lowerStr e.tag]
  let classSels :=
    if className e ≠ "" then
      match classTokens e with
      | c0 :: _ => ["." ++ c0]
      | [] => []
    else []
  let posSels :=
    match e.parentTags with
    | some siblings =>
      if 1 < siblings.length then
        if 1 < siblings.countP (fun t => t = e.tag) then
          [":nth-child(" ++ String.mk (natToChars (e.childIndex + 1)) ++ ")"]
        else []
      else []
    | none => []
  String.join (tagSel ++ classSels ++ posSels)

/-- `_getBestAttributeSelector`: `#id` for the id strategy, the longest
class token for the class strategy, the first `data-*` attribute for the
data strategy, else a `[attr="value"]` fallback when the element carries
the attribute, else `null`. -/
def getBestAttributeSelector (e : Elem) (attrType : String) : Option String :=
  if attrType = "id" ∧ elemId e ≠ "" then
    some ("#" ++ elemId e)
  else if attrType = "class" ∧ className e ≠ "" ∧ classTokens e ≠ [] then
    some ("." ++ (sortClassesByLengthDesc (classTokens e)).headI)
  else if attrType = "data-" ∧ e.attrs.filter (fun p => strStartsWith "data-" p.1) ≠ [] then
    match e.attrs.filter (fun p => strStartsWith "data-" p.1) with
    | attr :: _ => some ("[" ++ attr.1 ++ "=\"" ++ attr.2 ++ "\"]")
    | [] => none
  else
    match getAttr e attrType with
    | some v => some ("[" ++ attrType ++ "=\"" ++ v ++ "\"]")
    | none => none

/-- `_addCandidatesWithRole`: over the before-elements with the given role
(`querySelectorAll('[role="hint"]')`), keep those with a positive
term-match score and a correspondence match in the after-pool; the
candidate's score is `85 + matchScore * 5` (the source comments this
`// Max 100`). -/
def addCandidatesWithRole (beforeDOM afterDOM : List Elem) (role : String)
    (keyTerms : List String) : List Candidate :=
  let afterElements := afterDOM.filter (fun e => elemMatches e (.attrEq "role" role))
  (beforeDOM.filter (fun e => elemMatches e (.attrEq "role" role))).filterMap
    (fun beforeEl =>
      let ms := calculateTermMatchScore beforeEl keyTerms
      if 0 < ms then
        match findMatchingElement beforeEl afterElements with
        | some matchingAfterEl =>
          some ⟨"[role=\"" ++ role ++ "\"]" ++ generateAdditionalSelectors matchingAfterEl,
            85 + ms * 5, "role-based"⟩
        | none => none
      else none)

/-- The forEach body of `_addCandidatesWithAttribute` over the two element
pools: retained candidates score `baseScore + matchScore * 3`. -/
def processAttrCandidates (beforeElements afterElements : List Elem) (attrType : String)
    (keyTerms : List String) (baseScore : Nat) : List Candidate :=
  beforeElements.filterMap (fun beforeEl =>
    let ms := calculateTermMatchScore beforeEl keyTerms
    if 0 < ms then
      match findMatchingElement beforeEl afterElements with
      | some matchingAfterEl =>
        match getBestAttributeSelector matchingAfterEl attrType with
        | some attrSelector => some ⟨attrSelector, baseScore + ms * 3, attrType ++ "-based"⟩
        | none => none
      | none => none
    else none)

/-- `_addCandidatesWithAttribute`: the `data-` pool is built by filtering
all elements for a `data-*` attribute; other strategies query
`[attrType]`; the body sits in a try/catch, so a query whose selector the
engine rejects contributes no candidates instead of aborting. -/
def addCandidatesWithAttribute (beforeDOM afterDOM : List Elem) (attrType : String)
    (keyTerms : List String) (baseScore : Nat) : List Candidate :=
  if attrType = "data-" then
    processAttrCandidates (beforeDOM.filter hasDataAttribute) (afterDOM.filter hasDataAttribute)
      attrType keyTerms baseScore
  else
    match parseSelector ("[" ++ attrType ++ "]") with
    | none => []
    | some sel =>
      processAttrCandidates (beforeDOM.filter (fun e => elemMatches e sel))
        (afterDOM.filter (fun e => elemMatches e sel)) attrType keyTerms baseScore

/-- `_findStableElementsMatchingFeature`: the four strategies in order —
role (when a role hint is given), id (base 90), data (base 85), class
(base 75). -/
def findStableElementsMatchingFeature (beforeDOM afterDOM : List Elem) (role : String)
    (keyTerms : List String) : List Candidate :=
  (if role ≠ "" then addCandidatesWithRole beforeDOM afterDOM role keyTerms else [])
    ++ addCandidatesWithAttribute beforeDOM afterDOM "id" keyTerms 90
    ++ addCandidatesWithAttribute beforeDOM afterDOM "data-" keyTerms 85
    ++ addCandidatesWithAttribute beforeDOM afterDOM "class" keyTerms 75

/-- One entry of the fixed feature catalog `criticalFeatures`. -/
structure Feature where
  name : String
  role : String
  keyTerms : List String
deriving Repr, DecidableEq

/-- The fixed feature catalog of `generateAnchorRecommendations` (browser
variant). -/
def criticalFeatures : List Feature :=
  [⟨"MessageList", "list", ["message", "inbox", "mail"]⟩,
   ⟨"ComposeButton", "button", ["compose", "new", "create", "mail"]⟩,
   ⟨"FolderPane", "tree", ["folder", "navigation", "tree"]⟩,
   ⟨"ReadingPane", "region", ["reading", "content", "message"]⟩,
   ⟨"CommandBar", "toolbar", ["command", "action", "toolbar"]⟩]

/-- One feature's entry of `recommendedAnchors`; the empty-candidates
record carries no `selectorType` (modelled `none`). -/
structure Recommendation where
  primarySelector : Option String
  alternativeSelectors : List String
  stabilityScore : Nat
  selectorType : Option String
  isReliable : Bool
deriving Repr, DecidableEq

/-- The per-feature body of `generateAnchorRecommendations`: sort the
retained candidates by descending stability score; the top is the primary
selector, the next up to three are alternatives; `isReliable` is
`candidates[0].stabilityScore > 85`.  (The sorted list is empty exactly
when the candidate pool is, matching the source's `length > 0` test.) -/
def recommendationFor (beforeDOM afterDOM : List Elem) (f : Feature) : Recommendation :=
  match sortCandidatesDesc
      (findStableElementsMatchingFeature beforeDOM afterDOM f.role f.keyTerms) with
  | [] => ⟨none, [], 0, none, false⟩
  | top :: rest =>
    ⟨some top.selector, (rest.take 3).map Candidate.selector, top.stabilityScore,
      some top.type, decide (85 < top.stabilityScore)⟩

/-- `generateAnchorRecommendations` (browser variant): one recommendation
per catalog feature, keyed by feature name. -/
def generateAnchorRecommendations (beforeDOM afterDOM : List Elem) :
    List (String × Recommendation) :=
  criticalFeatures.map (fun f => (f.name, recommendationFor beforeDOM afterDOM f))

/-- Document exhibiting the uncapped role-based score: one toolbar element
whose attribute values match all three CommandBar key terms, hence
term-match score 5. -/
def docCommandBar : List Elem :=
  [⟨"DIV", [("role", "toolbar"), ("aria-label", "command action")], "", 0, none, 0, 0⟩]

/-- A snapshot whose only MessageList evidence is one class-carrying
element with the key term in its text: the sole retained candidate is
class-based with score 75 + 1·3 = 78. -/
def docClassInbox : List Elem :=
  [⟨"DIV", [("class", "zz")], "inbox", 0, none, 0, 0⟩]

lemma foldl_count_one {α : Type} (p : α → Bool) :
    ∀ (l : List α) (n : Nat),
      l.foldl (fun acc x => if p x then acc + 1 else acc) n = n + l.countP p
  | [], n => by simp
  | x :: l, n => by
    by_cases h : p x
    · simp [List.countP_cons, h, foldl_count_one p l]
      omega
    · simp [List.countP_cons, h, foldl_count_one p l]

lemma foldl_count_two {α : Type} (p : α → Bool) :
    ∀ (l : List α) (n : Nat),
      l.foldl (fun acc x => if p x then acc + 2 else acc) n = n + 2 * l.countP p
  | [], n => by simp
  | x :: l, n => by
    by_cases h : p x
    · simp [List.countP_cons, h, foldl_count_two p l]
      omega
    · simp [List.countP_cons, h, foldl_count_two p l]

lemma foldl_attr_pairs (keyTerms : List String) :
    ∀ (attrs : List (String × String)) (n : Nat),
      attrs.foldl
        (fun acc p => keyTerms.foldl
          (fun acc2 term =>
            if strIncludes (lowerStr p.2) (lowerStr term) then acc2 + 2 else acc2)
          acc)
        n
      = n + 2 * (attrs.map (fun p =>
          keyTerms.countP (fun term => strIncludes (lowerStr p.2) (lowerStr term)))).sum
  | [], n => by simp
  | p :: attrs, n => by
    simp only [List.foldl_cons, List.map_cons, List.sum_cons]
    rw [foldl_count_two, foldl_attr_pairs keyTerms attrs]
    ring

/-- C6 (amended): the term-match score of `_calculateTermMatchScore` equals
min(5, t + 2·p) where t counts key terms occurring case-insensitively in
the element's text and p counts (attribute value, key term) pairs whose
term occurs case-insensitively in the value; it never exceeds 5 (and is a
natural number, hence never negative). -/
theorem calculateTermMatchScore_closed_form (e : Elem) (keyTerms : List String) :
    calculateTermMatchScore e keyTerms
      = min 5 (textTermMatches e keyTerms + 2 * attrTermPairMatches e keyTerms) ∧
    calculateTermMatchScore e keyTerms ≤ 5 := by
  have h : calculateTermMatchScore e keyTerms
      = min 5 (textTermMatches e keyTerms + 2 * attrTermPairMatches e keyTerms) := by
    simp only [calculateTermMatchScore, textTermMatches, attrTermPairMatches]
    rw [foldl_attr_pairs, foldl_count_one]
    simp
  exact ⟨h, by rw [h]; exact Nat.min_le_left _ _⟩

/-- C6 counterexample: one key term occurring in two attribute values earns
+2 twice (code gives 4), while the claim's "+2 per key term found as a
substring of any attribute value" yields 2. -/
theorem calculateTermMatchScore_cex :
    calculateTermMatchScore ⟨"DIV", [("a", "mail"), ("b", "mail")], "", 0, none, 0, 0⟩ ["mail"] = 4
    ∧ claimedTermMatchScore ⟨"DIV", [("a", "mail"), ("b", "mail")], "", 0, none, 0, 0⟩ ["mail"] = 2
    ∧ (4 : Nat) ≠ 2 := by decide

lemma charsContain_nil_of_ne_nil {pat : List Char} (h : pat ≠ []) :
    charsContain pat [] = false := by
  cases pat with
  | nil => exact absurd rfl h
  | cons c l => simp [charsContain, List.isEmpty]

lemma strIncludes_empty_left {sub : String} (h : sub ≠ "") :
    strIncludes "" sub = false := by
  have hl : sub.toList ≠ [] := by
    intro hnil
    apply h
    cases sub with
    | mk data =>
      cases data with
      | nil => rfl
      | cons c l => simp [String.toList] at hnil
  simpa [strIncludes] using charsContain_nil_of_ne_nil hl

lemma findMatchingElementAux_spec (b : Elem) :
    ∀ (pool : List Elem) (best : Option Elem) (hi : Nat),
      (findMatchingElementAux b pool best hi = best ∧ ∀ x ∈ pool, matchScore b x ≤ hi) ∨
      (∃ l1 c l2, pool = l1 ++ c :: l2 ∧
        findMatchingElementAux b pool best hi = some c ∧ hi < matchScore b c ∧
        (∀ x ∈ l1, matchScore b x < matchScore b c) ∧
        (∀ x ∈ l2, matchScore b x ≤ matchScore b c))
  | [], best, hi => by
    left
    exact ⟨rfl, by simp⟩
  | c0 :: rest, best, hi => by
    by_cases h : hi < matchScore b c0
    · have step : findMatchingElementAux b (c0 :: rest) best hi
        = findMatchingElementAux b rest (some c0) (matchScore b c0) := by
        simp [findMatchingElementAux, h]
      rcases findMatchingElementAux_spec b rest (some c0) (matchScore b c0) with
        ⟨hres, hall⟩ | ⟨l1, c, l2, hdec, hres, hlt, h1, h2⟩
      · right
        exact ⟨[], c0, rest, by simp, by rw [step, hres], h, by simp, hall⟩
      · right
        refine ⟨c0 :: l1, c, l2, by simp [hdec], by rw [step, hres],
          lt_trans h hlt, ?_, h2⟩
        intro x hx
        rcases List.mem_cons.mp hx with hx | hx
        · exact hx ▸ hlt
        · exact h1 x hx
    · have step : findMatchingElementAux b (c0 :: rest) best hi
        = findMatchingElementAux b rest best hi := by
        simp [findMatchingElementAux, h]
      rcases findMatchingElementAux_spec b rest best hi with
        ⟨hres, hall⟩ | ⟨l1, c, l2, hdec, hres, hlt, h1, h2⟩
      · left
        refine ⟨by rw [step, hres], ?_⟩
        intro x hx
        rcases List.mem_cons.mp hx with hx | hx
        · exact hx ▸ Nat.not_lt.mp h
        · exact hall x hx
      · right
        refine ⟨c0 :: l1, c, l2, by simp [hdec], by rw [step, hres], hlt, ?_, h2⟩
        intro x hx
        rcases List.mem_cons.mp hx with hx | hx
        · exact hx ▸ lt_of_le_of_lt (Nat.not_lt.mp h) hlt
        · exact h1 x hx

lemma matchScore_eq_claimed_of_values_nonempty (b c : Elem)
    (h : ∀ p ∈ b.attrs, p.2 ≠ "") :
    matchScore b c = claimedMatchScore b c := by
  simp only [matchScore, claimedMatchScore]
  congr 2
  apply List.foldl_ext
  intro acc p hp
  congr 1
  cases hav : getAttr c p.1 with
  | none => rfl
  | some av =>
    by_cases heq : av = p.2
    · simp [heq]
    · by_cases hinc : strIncludes av p.2
      · have hne : av ≠ "" := by
          intro hav0
          rw [hav0] at hinc
          rw [strIncludes_empty_left (h p hp)] at hinc
          exact Bool.false_ne_true hinc
        simp [heq, hinc, hne, h p hp]
      · simp [heq, hinc]

/-- C1 (amended): `_findMatchingElement` returns `none` exactly when every
candidate in the pool scores zero (in particular for an empty pool);
otherwise it returns the first candidate attaining the strictly highest
score (ties resolved to the earliest in document order).  The score is +2
per byte-identical attribute, +1 per substring-contained attribute value
when BOTH values are non-empty (the JS truthiness guard — the only
divergence from the claim's wording), +1 for equal tag names and +2 for an
equal zero-based element-sibling index; whenever the before-element has no
empty attribute value the guard is vacuous and the score coincides with the
claim's formula. -/
theorem findMatchingElement_characterization (b : Elem) (pool : List Elem) :
    (findMatchingElement b pool = none ↔ ∀ x ∈ pool, matchScore b x = 0) ∧
    (∀ c, findMatchingElement b pool = some c →
      ∃ l1 l2, pool = l1 ++ c :: l2 ∧ 0 < matchScore b c ∧
        (∀ x ∈ l1, matchScore b x < matchScore b c) ∧
        (∀ x ∈ l2, matchScore b x ≤ matchScore b c)) ∧
    (∀ c, (∀ p ∈ b.attrs, p.2 ≠ "") → matchScore b c = claimedMatchScore b c) := by
  refine ⟨⟨?_, ?_⟩, ?_, fun c h => matchScore_eq_claimed_of_values_nonempty b c h⟩
  · intro hnone x hx
    rcases findMatchingElementAux_spec b pool none 0 with
      ⟨_, hall⟩ | ⟨l1, c, l2, _, hres, _, _, _⟩
    · exact Nat.le_zero.mp (hall x hx)
    · rw [findMatchingElement] at hnone
      rw [hnone] at hres
      exact absurd hres (by simp)
  · intro hall
    rcases findMatchingElementAux_spec b pool none 0 with
      ⟨hres, _⟩ | ⟨l1, c, l2, hdec, _, hlt, _, _⟩
    · exact hres
    · have hc : c ∈ pool := hdec ▸ List.mem_append_right l1 (List.mem_cons_self c l2)
      rw [hall c hc] at hlt
      exact absurd hlt (by simp)
  · intro c hsome
    rcases findMatchingElementAux_spec b pool none 0 with
      ⟨hres, _⟩ | ⟨l1, c', l2, hdec, hres, hlt, h1, h2⟩
    · rw [findMatchingElement] at hsome
      rw [hsome] at hres
      exact absurd hres (by simp)
    · rw [findMatchingElement] at hsome
      rw [hsome] at hres
      have hc : c' = c := (Option.some.inj hres).symm
      subst hc
      exact ⟨l1, l2, hdec, hlt, h1, h2⟩

/-- Witness for C1: a pool whose single candidate shares no attribute, tag
or position with the before-element scores 0 and is rejected. -/
theorem findMatchingElement_characterization_witness :
    findMatchingElement ⟨"DIV", [], "", 0, none, 0, 0⟩
      [⟨"SPAN", [("a", "b")], "", 1, none, 0, 0⟩] = none :=
  (findMatchingElement_characterization ⟨"DIV", [], "", 0, none, 0, 0⟩
    [⟨"SPAN", [("a", "b")], "", 1, none, 0, 0⟩]).1.mpr (by decide)

/-- C1 counterexample: the before-element's attribute value is the empty
string; the claim's substring rule gives the candidate score 1 (a strictly
highest non-zero score, so the claim requires it to be picked), yet the
code's truthiness guard scores it 0 and `_findMatchingElement` returns
`none`. -/
theorem findMatchingElement_cex :
    claimedMatchScore ⟨"DIV", [("data-v", "")], "", 0, none, 0, 0⟩
        ⟨"SPAN", [("data-v", "x")], "", 1, none, 0, 0⟩ = 1 ∧
    findMatchingElement ⟨"DIV", [("data-v", "")], "", 0, none, 0, 0⟩
        [⟨"SPAN", [("data-v", "x")], "", 1, none, 0, 0⟩] = none := by
  decide

lemma setInsert_nodup {l : List String} {v : String} (h : l.Nodup) :
    (setInsert l v).Nodup := by
  unfold setInsert
  by_cases hv : v ∈ l
  · simpa [hv] using h
  · simp [hv, List.nodup_append, h]

lemma mem_setInsert {x : String} {l : List String} {v : String} :
    x ∈ setInsert l v ↔ x ∈ l ∨ x = v := by
  unfold setInsert
  by_cases hv : v ∈ l
  · simp only [if_pos hv]
    constructor
    · exact Or.inl
    · rintro (hx | rfl)
      · exact hx
      · exact hv
  · simp [hv]

lemma foldl_setInsert_nodup :
    ∀ (vs : List String) (acc : List String), acc.Nodup → (vs.foldl setInsert acc).Nodup
  | [], _, h => h
  | v :: vs, acc, h => foldl_setInsert_nodup vs (setInsert acc v) (setInsert_nodup h)

lemma mem_foldl_setInsert :
    ∀ (vs : List String) (acc : List String) (x : String),
      x ∈ vs.foldl setInsert acc ↔ x ∈ acc ∨ x ∈ vs
  | [], acc, x => by simp
  | v :: vs, acc, x => by
    rw [List.foldl_cons, mem_foldl_setInsert vs (setInsert acc v) x, mem_setInsert]
    simp only [List.mem_cons]
    tauto

lemma distinctList_nodup (vs : List String) : (distinctList vs).Nodup :=
  foldl_setInsert_nodup vs [] List.nodup_nil

lemma mem_distinctList {x : String} {vs : List String} :
    x ∈ distinctList vs ↔ x ∈ vs := by
  rw [distinctList, mem_foldl_setInsert]
  simp

/-- C3: for each catalog attribute, `findStableAttributes` reports, per
attribute, the record built from the distinct-value sets; the numeric
stability score equals commonCount / beforeCount * 100 whenever the
before-tree carries at least one value of the attribute, and is exactly 0
(not an error, not NaN — the guard short-circuits the division) when the
attribute is absent from the before-tree. -/
theorem findStableAttributes_score_spec (beforeDOM afterDOM : List Elem) (a : String)
    (hcat : a ∈ attributesToCheck) :
    (findStableAttributes beforeDOM afterDOM).lookup a
      = some (attrRecord beforeDOM afterDOM a) ∧
    (0 < (attrRecord beforeDOM afterDOM a).totalBefore →
      rawStabilityScore beforeDOM afterDOM a
        = ((attrRecord beforeDOM afterDOM a).commonCount : ℚ)
          / ((attrRecord beforeDOM afterDOM a).totalBefore : ℚ) * 100) ∧
    ((∀ e ∈ beforeDOM, getAttr e a = none) →
      rawStabilityScore beforeDOM afterDOM a = 0) := by
  refine ⟨?_, ?_, ?_⟩
  · simp only [attributesToCheck, List.mem_cons, List.not_mem_nil, or_false] at hcat
    rcases hcat with rfl | rfl | rfl | rfl | rfl | rfl <;>
      simp [findStableAttributes, attributesToCheck, List.lookup]
  · intro h
    simp only [attrRecord] at h ⊢
    rw [rawStabilityScore, if_pos h]
  · intro h
    have hnil : attrValueSet beforeDOM a = [] := by
      have : beforeDOM.filterMap (fun e => getAttr e a) = [] := by
        rw [List.filterMap_eq_nil_iff]
        exact h
      rw [attrValueSet, this]
      rfl
    rw [rawStabilityScore, hnil]
    simp

/-- Witness for C3: two distinct before-ids, one surviving, score 50; and a
before-tree without the attribute scoring 0. -/
theorem findStableAttributes_score_spec_witness :
    rawStabilityScore docIdXY docIdX "id" = 50 ∧ rawStabilityScore [] [] "id" = 0 := by
  constructor
  · have h := (findStableAttributes_score_spec docIdXY docIdX "id" (by decide)).2.1 (by decide)
    rw [h]
    have hc : (attrRecord docIdXY docIdX "id").commonCount = 1 := by decide
    have hb : (attrRecord docIdXY docIdX "id").totalBefore = 2 := by decide
    rw [hc, hb]
    norm_num
  · exact (findStableAttributes_score_spec [] [] "id" (by decide)).2.2
      (by intro e he; cases he)

/-- C8: the reported stability score always lies in [0, 100], and the
number of common values never exceeds either distinct-value count. -/
theorem attrRecord_invariants (beforeDOM afterDOM : List Elem) (a : String) :
    0 ≤ rawStabilityScore beforeDOM afterDOM a ∧
    rawStabilityScore beforeDOM afterDOM a ≤ 100 ∧
    (attrRecord beforeDOM afterDOM a).commonCount
      ≤ min (attrRecord beforeDOM afterDOM a).totalBefore
          (attrRecord beforeDOM afterDOM a).totalAfter := by
  have hb : (commonAttrValues beforeDOM afterDOM a).length
      ≤ (attrValueSet beforeDOM a).length :=
    List.length_filter_le _ _
  have hsub : commonAttrValues beforeDOM afterDOM a ⊆ attrValueSet afterDOM a := by
    intro x hx
    have hmem := List.of_mem_filter hx
    simpa using hmem
  have hnd : (commonAttrValues beforeDOM afterDOM a).Nodup :=
    (distinctList_nodup _).filter _
  have ha : (commonAttrValues beforeDOM afterDOM a).length
      ≤ (attrValueSet afterDOM a).length :=
    (hnd.subperm hsub).length_le
  refine ⟨?_, ?_, ?_⟩
  · rw [rawStabilityScore]
    by_cases h : 0 < (attrValueSet beforeDOM a).length
    · rw [if_pos h]
      positivity
    · rw [if_neg h]
  · rw [rawStabilityScore]
    by_cases h : 0 < (attrValueSet beforeDOM a).length
    · rw [if_pos h]
      have h1 : ((commonAttrValues beforeDOM afterDOM a).length : ℚ)
          ≤ ((attrValueSet beforeDOM a).length : ℚ) := by exact_mod_cast hb
      have h2 : (0 : ℚ) < ((attrValueSet beforeDOM a).length : ℚ) := by exact_mod_cast h
      calc ((commonAttrValues beforeDOM afterDOM a).length : ℚ)
            / ((attrValueSet beforeDOM a).length : ℚ) * 100
          ≤ 1 * 100 := by
            apply mul_le_mul_of_nonneg_right _ (by norm_num)
            exact (div_le_one h2).mpr h1
        _ = 100 := by norm_num
    · rw [if_neg h]
      norm_num
  · simp only [attrRecord, le_min_iff]
    exact ⟨hb, ha⟩

lemma isDigit_digitChar {d : Nat} (h : d < 10) : (digitChar d).isDigit = true := by
  interval_cases d <;> decide

/-- C10: the `stabilityScore` field of every attribute record is the string
produced by `toFixed(2)` — a decimal string whose last three characters are
a dot followed by exactly two digit characters — not a number. -/
theorem stabilityScore_field_is_fixed_string (beforeDOM afterDOM : List Elem) (a : String) :
    (attrRecord beforeDOM afterDOM a).stabilityScore
      = toFixed2 (rawStabilityScore beforeDOM afterDOM a) ∧
    ∃ d1 d2 : Char, d1.isDigit = true ∧ d2.isDigit = true ∧
      (attrRecord beforeDOM afterDOM a).stabilityScore.toList.reverse.take 3
        = [d2, d1, '.'] := by
  refine ⟨rfl, ?_⟩
  set n : Nat := (Rat.floor (rawStabilityScore beforeDOM afterDOM a * 100 + 1 / 2)).toNat with hn
  refine ⟨digitChar (n % 100 / 10), digitChar (n % 100 % 10),
    isDigit_digitChar (by omega), isDigit_digitChar (by omega), ?_⟩
  show (toFixed2 (rawStabilityScore beforeDOM afterDOM a)).toList.reverse.take 3 = _
  simp only [toFixed2, ← hn]
  show (natToChars (n / 100) ++ ['.', digitChar (n % 100 / 10), digitChar (n % 100 % 10)]).reverse.take 3 = _
  rw [List.reverse_append]
  simp [List.take]

lemma findEMS_found_iff_selector (doc : List Elem) :
    ∀ sels, (findElementMatchingSelectors doc sels).found = true
      ↔ (findElementMatchingSelectors doc sels).selector.isSome = true
  | [] => by simp [findElementMatchingSelectors]
  | sel :: rest => by
    rcases hq : querySelectorFirst doc sel with u | o
    · simp only [findElementMatchingSelectors, hq]
      exact findEMS_found_iff_selector doc rest
    · cases o with
      | none =>
        simp only [findElementMatchingSelectors, hq]
        exact findEMS_found_iff_selector doc rest
      | some e => simp [findElementMatchingSelectors, hq]

lemma selector_none_of_not_found {doc : List Elem} {sels : List String}
    (h : (findElementMatchingSelectors doc sels).found = false) :
    (findElementMatchingSelectors doc sels).selector = none := by
  rcases hx : (findElementMatchingSelectors doc sels).selector with _ | s
  · rfl
  · have : (findElementMatchingSelectors doc sels).found = true :=
      (findEMS_found_iff_selector doc sels).mpr (by rw [hx]; rfl)
    rw [this] at h
    exact absurd h (by simp)

lemma recordFor_none_iff (beforeDOM afterDOM : List Elem) (lm : Landmark) :
    recordFor beforeDOM afterDOM lm = none ↔
      ((findElementMatchingSelectors beforeDOM lm.selectors).found = true ∧
       (findElementMatchingSelectors afterDOM lm.selectors).found = true ∧
       (findElementMatchingSelectors beforeDOM lm.selectors).selector
         = (findElementMatchingSelectors afterDOM lm.selectors).selector) ∨
      ((findElementMatchingSelectors beforeDOM lm.selectors).found = false ∧
       (findElementMatchingSelectors afterDOM lm.selectors).found = false) := by
  set B := findElementMatchingSelectors beforeDOM lm.selectors with hB
  set A := findElementMatchingSelectors afterDOM lm.selectors with hA
  constructor
  · intro hnone
    by_cases hcond : (B.selector ≠ A.selector ∨ B.found ≠ A.found)
    · rw [recordFor] at hnone
      simp only [← hB, ← hA, if_pos hcond] at hnone
      exact absurd hnone (by simp)
    · push_neg at hcond
      obtain ⟨hsel, hfound⟩ := hcond
      cases hbf : B.found with
      | false => exact Or.inr ⟨rfl, by rw [← hfound, hbf]⟩
      | true => exact Or.inl ⟨rfl, by rw [← hfound, hbf], hsel⟩
  · intro h
    have hcond : ¬(B.selector ≠ A.selector ∨ B.found ≠ A.found) := by
      rcases h with ⟨hbf, haf, hsel⟩ | ⟨hbf, haf⟩
      · push_neg
        exact ⟨hsel, by rw [hbf, haf]⟩
      · push_neg
        refine ⟨?_, by rw [hbf, haf]⟩
        rw [selector_none_of_not_found hbf, selector_none_of_not_found haf]
    rw [recordFor]
    simp only [← hB, ← hA, if_neg hcond]

lemma recordFor_status_iff (beforeDOM afterDOM : List Elem) (lm : Landmark) :
    ∀ r, recordFor beforeDOM afterDOM lm = some r →
      ((r.status = "added") ↔
        ((findElementMatchingSelectors beforeDOM lm.selectors).found = false ∧
         (findElementMatchingSelectors afterDOM lm.selectors).found = true)) ∧
      ((r.status = "removed") ↔
        ((findElementMatchingSelectors beforeDOM lm.selectors).found = true ∧
         (findElementMatchingSelectors afterDOM lm.selectors).found = false)) ∧
      ((r.status = "changed") ↔
        ((findElementMatchingSelectors beforeDOM lm.selectors).found = true ∧
         (findElementMatchingSelectors afterDOM lm.selectors).found = true ∧
         (findElementMatchingSelectors beforeDOM lm.selectors).selector
           ≠ (findElementMatchingSelectors afterDOM lm.selectors).selector)) := by
  set B := findElementMatchingSelectors beforeDOM lm.selectors with hB
  set A := findElementMatchingSelectors afterDOM lm.selectors with hA
  intro r hr
  by_cases hcond : (B.selector ≠ A.selector ∨ B.found ≠ A.found)
  · rw [recordFor] at hr
    simp only [← hB, ← hA, if_pos hcond] at hr
    have hstat : r.status
        = (if B.found = false then "added" else if A.found = false then "removed"
           else "changed") := by
      rw [← Option.some.inj hr]
    have hadded : ("added" : String) ≠ "removed" := by decide
    have hchanged : ("added" : String) ≠ "changed" := by decide
    have hrc : ("removed" : String) ≠ "changed" := by decide
    cases hbf : B.found with
    | false =>
      cases haf : A.found with
      | false =>
        exfalso
        rcases hcond with hs | hf
        · exact hs (by rw [selector_none_of_not_found hbf, selector_none_of_not_found haf])
        · exact hf (by rw [hbf, haf])
      | true =>
        rw [hstat, hbf, haf]
        simp [hadded, hchanged]
    | true =>
      cases haf : A.found with
      | false =>
        rw [hstat, hbf, haf]
        simp [hadded.symm, hrc]
      | true =>
        rw [hstat, hbf, haf]
        have hsel : B.selector ≠ A.selector := by
          rcases hcond with hs | hf
          · exact hs
          · exact absurd (by rw [hbf, haf]) hf
        simp [hchanged.symm, hrc.symm, hsel]
  · rw [recordFor] at hr
    simp only [← hB, ← hA, if_neg hcond] at hr
    exact absurd hr (by simp)

lemma exists_added_iff (beforeDOM afterDOM : List Elem) (lm : Landmark) :
    (∃ r, recordFor beforeDOM afterDOM lm = some r ∧ r.status = "added") ↔
      ((findElementMatchingSelectors beforeDOM lm.selectors).found = false ∧
       (findElementMatchingSelectors afterDOM lm.selectors).found = true) := by
  constructor
  · rintro ⟨r, hr, hst⟩
    exact ((recordFor_status_iff beforeDOM afterDOM lm r hr).1).mp hst
  · rintro ⟨hbf, haf⟩
    have hne : recordFor beforeDOM afterDOM lm ≠ none := by
      intro hnone
      rcases (recordFor_none_iff beforeDOM afterDOM lm).mp hnone with ⟨h1, _, _⟩ | ⟨_, h2⟩
      · rw [hbf] at h1
        exact Bool.false_ne_true h1
      · rw [haf] at h2
        exact absurd h2 (by simp)
    obtain ⟨r, hr⟩ := Option.ne_none_iff_exists'.mp hne
    exact ⟨r, hr, ((recordFor_status_iff beforeDOM afterDOM lm r hr).1).mpr ⟨hbf, haf⟩⟩

lemma exists_removed_iff (beforeDOM afterDOM : List Elem) (lm : Landmark) :
    (∃ r, recordFor beforeDOM afterDOM lm = some r ∧ r.status = "removed") ↔
      ((findElementMatchingSelectors beforeDOM lm.selectors).found = true ∧
       (findElementMatchingSelectors afterDOM lm.selectors).found = false) := by
  constructor
  · rintro ⟨r, hr, hst⟩
    exact ((recordFor_status_iff beforeDOM afterDOM lm r hr).2.1).mp hst
  · rintro ⟨hbf, haf⟩
    have hne : recordFor beforeDOM afterDOM lm ≠ none := by
      intro hnone
      rcases (recordFor_none_iff beforeDOM afterDOM lm).mp hnone with ⟨_, h2, _⟩ | ⟨h1, _⟩
      · rw [haf] at h2
        exact Bool.false_ne_true h2
      · rw [hbf] at h1
        exact absurd h1 (by simp)
    obtain ⟨r, hr⟩ := Option.ne_none_iff_exists'.mp hne
    exact ⟨r, hr, ((recordFor_status_iff beforeDOM afterDOM lm r hr).2.1).mpr ⟨hbf, haf⟩⟩

lemma exists_changed_iff (beforeDOM afterDOM : List Elem) (lm : Landmark) :
    (∃ r, recordFor beforeDOM afterDOM lm = some r ∧ r.status = "changed") ↔
      ((findElementMatchingSelectors beforeDOM lm.selectors).found = true ∧
       (findElementMatchingSelectors afterDOM lm.selectors).found = true ∧
       (findElementMatchingSelectors beforeDOM lm.selectors).selector
         ≠ (findElementMatchingSelectors afterDOM lm.selectors).selector) := by
  constructor
  · rintro ⟨r, hr, hst⟩
    exact ((recordFor_status_iff beforeDOM afterDOM lm r hr).2.2).mp hst
  · rintro ⟨hbf, haf, hsel⟩
    have hne : recordFor beforeDOM afterDOM lm ≠ none := by
      intro hnone
      rcases (recordFor_none_iff beforeDOM afterDOM lm).mp hnone with ⟨_, _, h3⟩ | ⟨h1, _⟩
      · exact hsel h3
      · rw [hbf] at h1
        exact absurd h1 (by simp)
    obtain ⟨r, hr⟩ := Option.ne_none_iff_exists'.mp hne
    exact ⟨r, hr, ((recordFor_status_iff beforeDOM afterDOM lm r hr).2.2).mpr ⟨hbf, haf, hsel⟩⟩

/-- C4: over the fixed landmark catalog, `identifyChangedSelectors` emits
the per-landmark records of `recordFor`; for any landmark, no record is
emitted exactly when the outcome is unchanged (found in both trees via the
same selector, or found in neither), and an emitted record's status is
`added` iff not found before and found after, `removed` iff found before and
not after, and `changed` iff found in both via different selectors. -/
theorem identifyChangedSelectors_classification
    (beforeDOM afterDOM : List Elem) (lm : Landmark) :
    identifyChangedSelectors beforeDOM afterDOM
      = criticalElements.filterMap (recordFor beforeDOM afterDOM) ∧
    (recordFor beforeDOM afterDOM lm = none ↔
      ((findElementMatchingSelectors beforeDOM lm.selectors).found = true ∧
       (findElementMatchingSelectors afterDOM lm.selectors).found = true ∧
       (findElementMatchingSelectors beforeDOM lm.selectors).selector
         = (findElementMatchingSelectors afterDOM lm.selectors).selector) ∨
      ((findElementMatchingSelectors beforeDOM lm.selectors).found = false ∧
       (findElementMatchingSelectors afterDOM lm.selectors).found = false)) ∧
    (∀ r, recordFor beforeDOM afterDOM lm = some r →
      ((r.status = "added") ↔
        ((findElementMatchingSelectors beforeDOM lm.selectors).found = false ∧
         (findElementMatchingSelectors afterDOM lm.selectors).found = true)) ∧
      ((r.status = "removed") ↔
        ((findElementMatchingSelectors beforeDOM lm.selectors).found = true ∧
         (findElementMatchingSelectors afterDOM lm.selectors).found = false)) ∧
      ((r.status = "changed") ↔
        ((findElementMatchingSelectors beforeDOM lm.selectors).found = true ∧
         (findElementMatchingSelectors afterDOM lm.selectors).found = true ∧
         (findElementMatchingSelectors beforeDOM lm.selectors).selector
           ≠ (findElementMatchingSelectors afterDOM lm.selectors).selector))) :=
  ⟨rfl, recordFor_none_iff beforeDOM afterDOM lm, recordFor_status_iff beforeDOM afterDOM lm⟩

/-- Witness for C4: a landmark absent before and present after is reported
with status `added`. -/
theorem identifyChangedSelectors_classification_witness :
    (recordFor [] docToolbar lmRibbon).map ChangeRecord.status = some "added" := by
  rcases hr : recordFor [] docToolbar lmRibbon with _ | r
  · have h := (identifyChangedSelectors_classification [] docToolbar lmRibbon).2.1.mp hr
    exact absurd h (by decide)
  · have h := ((identifyChangedSelectors_classification [] docToolbar lmRibbon).2.2 r hr).1.mpr
      (by decide)
    simp [h]

/-- C9: change classification is direction-symmetric — a landmark `added`
comparing A to B is `removed` comparing B to A (and conversely), and
`changed` stays `changed` in both directions. -/
theorem changeKind_direction_symmetric (beforeDOM afterDOM : List Elem) (lm : Landmark) :
    ((∃ r, recordFor beforeDOM afterDOM lm = some r ∧ r.status = "added") ↔
      (∃ r, recordFor afterDOM beforeDOM lm = some r ∧ r.status = "removed")) ∧
    ((∃ r, recordFor beforeDOM afterDOM lm = some r ∧ r.status = "changed") ↔
      (∃ r, recordFor afterDOM beforeDOM lm = some r ∧ r.status = "changed")) := by
  constructor
  · rw [exists_added_iff, exists_removed_iff]
    tauto
  · rw [exists_changed_iff, exists_changed_iff]
    constructor
    · rintro ⟨hbf, haf, hsel⟩
      exact ⟨haf, hbf, fun h => hsel h.symm⟩
    · rintro ⟨haf, hbf, hsel⟩
      exact ⟨hbf, haf, fun h => hsel h.symm⟩

/-- Witness for C9: a landmark present only in the first snapshot is
`removed` comparing first to second, obtained from its being `added` in
the reverse comparison. -/
theorem changeKind_direction_symmetric_witness :
    ∃ r, recordFor docToolbar [] lmRibbon = some r ∧ r.status = "removed" := by
  apply (changeKind_direction_symmetric [] docToolbar lmRibbon).1.mp
  refine ⟨(recordFor [] docToolbar lmRibbon).get (by decide), ?_, by decide⟩
  exact (Option.some_get (by decide)).symm

lemma findEMS_skip_invalid (doc : List Elem) (bad : String)
    (hbad : parseSelector bad = none) :
    ∀ (l1 l2 : List String),
      findElementMatchingSelectors doc (l1 ++ bad :: l2)
        = findElementMatchingSelectors doc (l1 ++ l2)
  | [], l2 => by
    simp only [List.nil_append, findElementMatchingSelectors, querySelectorFirst, hbad]
  | sel :: l1, l2 => by
    simp only [List.cons_append, findElementMatchingSelectors]
    rcases hq : querySelectorFirst doc sel with u | o
    · exact findEMS_skip_invalid doc bad hbad l1 l2
    · cases o with
      | none => exact findEMS_skip_invalid doc bad hbad l1 l2
      | some e => rfl

/-- C7: an invalid selector string makes only its own query yield no match:
removed from a landmark's candidate list it leaves the landmark's outcome
untouched (the per-candidate try/catch just moves on), and an attribute
strategy whose pool query the engine rejects contributes no candidates (its
try/catch swallows the error); the analysis still completes around it. -/
theorem invalid_selector_fails_soft (doc beforeDOM afterDOM : List Elem)
    (l1 l2 : List String) (bad : String) (keyTerms : List String) (baseScore : Nat)
    (hbad : parseSelector bad = none) (hnotdata : bad ≠ "data-")
    (hbadattr : parseSelector ("[" ++ bad ++ "]") = none) :
    findElementMatchingSelectors doc (l1 ++ bad :: l2)
      = findElementMatchingSelectors doc (l1 ++ l2) ∧
    addCandidatesWithAttribute beforeDOM afterDOM bad keyTerms baseScore = [] := by
  refine ⟨findEMS_skip_invalid doc bad hbad l1 l2, ?_⟩
  simp [addCandidatesWithAttribute, hnotdata, hbadattr]

/-- Witness for C7: the empty selector string is invalid; dropping it from
the RIBBON candidate list changes nothing, and an attribute strategy run on
it yields no candidates. -/
theorem invalid_selector_fails_soft_witness :
    findElementMatchingSelectors docToolbar ([".ms-CommandBar"] ++ "" :: ["[role=\"toolbar\"]"])
      = findElementMatchingSelectors docToolbar ([".ms-CommandBar"] ++ ["[role=\"toolbar\"]"]) ∧
    addCandidatesWithAttribute docToolbar docToolbar "" ["toolbar"] 90 = [] :=
  invalid_selector_fails_soft docToolbar docToolbar docToolbar [".ms-CommandBar"]
    ["[role=\"toolbar\"]"] "" ["toolbar"] 90 (by decide) (by decide) (by decide)

/-- C2: the retained candidate's stabilityScore is `baseScore +
termMatchScore × weight` (weight 5 role-based, 3 attribute-based) — but
nothing caps it at 100: a role-based candidate with term-match score 5
scores 85 + 5·5 = 110, contradicting the source's own `// Max 100` comment
and the spec's cap. -/
theorem roleScore_exceeds_cap :
    (addCandidatesWithRole docCommandBar docCommandBar "toolbar"
        ["command", "action", "toolbar"]).map Candidate.stabilityScore = [110] ∧
    ((generateAnchorRecommendations docCommandBar docCommandBar).lookup "CommandBar").map
        Recommendation.stabilityScore = some 110 ∧
    100 < 110 := by
  decide

lemma sortCandidatesDesc_nil_iff {l : List Candidate} :
    sortCandidatesDesc l = [] ↔ l = [] := by
  constructor
  · intro h
    have hperm := List.perm_insertionSort
      (fun a b : Candidate => b.stabilityScore ≤ a.stabilityScore) l
    rw [sortCandidatesDesc] at h
    rw [h] at hperm
    exact hperm.symm.eq_nil
  · intro h
    rw [h]
    rfl

lemma sortCandidatesDesc_head_max {l top rest}
    (h : sortCandidatesDesc l = top :: rest) :
    top ∈ l ∧ ∀ c ∈ l, c.stabilityScore ≤ top.stabilityScore := by
  haveI htot : IsTotal Candidate (fun a b => b.stabilityScore ≤ a.stabilityScore) :=
    ⟨fun a b => le_total b.stabilityScore a.stabilityScore⟩
  haveI htrans : IsTrans Candidate (fun a b => b.stabilityScore ≤ a.stabilityScore) :=
    ⟨fun _ _ _ hab hbc => le_trans hbc hab⟩
  have hperm := List.perm_insertionSort
    (fun a b : Candidate => b.stabilityScore ≤ a.stabilityScore) l
  have hsorted := List.sorted_insertionSort
    (fun a b : Candidate => b.stabilityScore ≤ a.stabilityScore) l
  rw [sortCandidatesDesc] at h
  rw [h] at hperm hsorted
  constructor
  · exact hperm.mem_iff.mp (List.mem_cons_self top rest)
  · intro c hc
    rcases List.mem_cons.mp (hperm.symm.mem_iff.mp hc) with rfl | hc'
    · exact le_refl _
    · exact List.rel_of_sorted_cons hsorted c hc'

/-- C5 (amended): comparing any snapshot against an identical copy of
itself yields a raw stability score of exactly 100 for every attribute
present in the snapshot and an empty `changedSelectors` list; and (for any
two snapshots) a feature's `isReliable` is true exactly when some retained
candidate scores strictly above 85 — a feature whose retained candidates
all score at most 85 (for instance only low-scoring class-based ones) gets
`isReliable = false` even though it has candidates. -/
theorem self_comparison (d : List Elem) :
    (∀ a : String, (∃ e ∈ d, (getAttr e a).isSome = true) →
      rawStabilityScore d d a = 100) ∧
    identifyChangedSelectors d d = [] ∧
    (∀ f : Feature, ((recommendationFor d d f).isReliable = true ↔
      ∃ c ∈ findStableElementsMatchingFeature d d f.role f.keyTerms,
        85 < c.stabilityScore)) := by
  refine ⟨?_, ?_, ?_⟩
  · intro a ⟨e, he, hsome⟩
    have hcommon : commonAttrValues d d a = attrValueSet d a := by
      rw [commonAttrValues]
      exact List.filter_eq_self.mpr (fun v hv => decide_eq_true hv)
    have hne : attrValueSet d a ≠ [] := by
      rcases hv : getAttr e a with _ | v
      · rw [hv] at hsome
        exact absurd hsome (by simp)
      · intro hnil
        have hmem : v ∈ attrValueSet d a := by
          rw [attrValueSet, mem_distinctList]
          exact List.mem_filterMap.mpr ⟨e, he, hv⟩
        rw [hnil] at hmem
        exact List.not_mem_nil v hmem
    have hpos : 0 < (attrValueSet d a).length := List.length_pos.mpr hne
    rw [rawStabilityScore, if_pos hpos, hcommon]
    have hq : ((attrValueSet d a).length : ℚ) ≠ 0 := by
      exact_mod_cast Nat.pos_iff_ne_zero.mp hpos
    rw [div_self hq]
    norm_num
  · rw [identifyChangedSelectors, List.filterMap_eq_nil_iff]
    intro lm _
    apply (recordFor_none_iff d d lm).mpr
    cases hf : (findElementMatchingSelectors d lm.selectors).found with
    | false => exact Or.inr ⟨rfl, rfl⟩
    | true => exact Or.inl ⟨rfl, rfl, rfl⟩
  · intro f
    rcases hs : sortCandidatesDesc
        (findStableElementsMatchingFeature d d f.role f.keyTerms) with _ | ⟨top, rest⟩
    · have hl : findStableElementsMatchingFeature d d f.role f.keyTerms = [] :=
        sortCandidatesDesc_nil_iff.mp hs
      have hnil : sortCandidatesDesc ([] : List Candidate) = [] := rfl
      simp only [recommendationFor, hl, hnil]
      simp
    · obtain ⟨htopmem, hmax⟩ := sortCandidatesDesc_head_max hs
      simp only [recommendationFor, hs]
      constructor
      · intro h
        exact ⟨top, htopmem, of_decide_eq_true h⟩
      · rintro ⟨c, hc, hlt⟩
        exact decide_eq_true (lt_of_lt_of_le hlt (hmax c hc))

/-- Witness for C5: the toolbar document self-compared — its `role`
attribute scores 100 and no selector change is reported. -/
theorem self_comparison_witness :
    rawStabilityScore docToolbar docToolbar "role" = 100 ∧
    identifyChangedSelectors docToolbar docToolbar = [] := by
  refine ⟨(self_comparison docToolbar).1 "role" ?_, (self_comparison docToolbar).2.1⟩
  exact ⟨⟨"DIV", [("role", "toolbar")], "", 0, none, 0, 0⟩, by decide⟩

/-- C5 counterexample: self-comparison where the MessageList feature has
exactly one retained candidate (selector `.zz`, score 78) and yet
`isReliable = false` — refuting "isReliable = true for every feature that
has at least one retained candidate". -/
theorem self_comparison_cex :
    (findStableElementsMatchingFeature docClassInbox docClassInbox "list"
        ["message", "inbox", "mail"]).map Candidate.stabilityScore = [78] ∧
    (recommendationFor docClassInbox docClassInbox
        ⟨"MessageList", "list", ["message", "inbox", "mail"]⟩).primarySelector = some ".zz" ∧
    (recommendationFor docClassInbox docClassInbox
        ⟨"MessageList", "list", ["message", "inbox", "mail"]⟩).isReliable = false := by
  decide
